import Mathlib

set_option maxRecDepth 100000

/-!
Verification of the static content rendering pipeline of a personal blog
(Astro site).  The markdown mirror endpoint, the repository's blog front
matter and the social-link constants are embedded from the source files;
the Collection Loader and the Query Layer exist in the repository only as
a specification (no implementation ships under the source tree), so they
are modelled from the spec and verified against the spec's own testable
properties.
-/

/-! ## Markdown mirror endpoint (from src/astro.config.mjs) -/

/-- A minimal model of a web `Response`: status code, the two headers the
handler sets, and the body text. -/
structure SiteResponse where
  status : Nat
  contentType : String
  cacheControl : String
  body : String
deriving DecidableEq

/-- The request-time context handed to an Astro API route.  The handler
under study never reads it, so only an opaque URL field is modelled. -/
structure APIContext where
  url : String
deriving DecidableEq

/-- The fixed markdown document returned by the endpoint, embedded verbatim
from the template literal in src/astro.config.mjs. -/
def markdownContent : String :=
  "# Manoj Mahapatra (@mahapmanoj)\n\niOS Engineer. Swift, Bazel, Monorepos. Writing about iOS development and build systems.\n\n## Navigation\n\n- [About](/about.md)\n- [Recent Posts](/posts.md)\n- [Archives](/archives.md)\n- [RSS Feed](/rss.xml)\n\n## Links\n\n- Twitter: [@mahapmanoj](https://twitter.com/mahapmanoj)\n- GitHub: [@manojmahapatra](https://github.com/manojmahapatra)\n\n---\n\n*This is the markdown-only version. Visit [manojmahapatra.github.io](https://manojmahapatra.github.io) for the full experience.*"

/-- The `GET` handler of the markdown mirror endpoint
(src/astro.config.mjs).  It ignores the request context and returns the
fixed document with status 200, a markdown content type and a one-hour
cache hint.  It is a total function: it has no error outcome of its own. -/
def GET (_ctx : APIContext) : SiteResponse :=
  { status := 200
    contentType := "text/markdown; charset=utf-8"
    cacheControl := "public, max-age=3600"
    body := markdownContent }

/-! ## Content Records and the Query Layer

Modelled from the spec: the repository contains no implementation of the
Collection Loader or the Query Layer under its source tree (the spec
describes them as the contract a minimal content-pipeline library would
satisfy), so the data model and the four query functions are defined here
following the spec's section 3 and 4.2 word for word. -/

/-- Modelled from the spec: a single post's normalized representation
(spec section 3, "Content Record"). -/
structure ContentRecord where
  slug : String
  title : String
  description : String
  publishedAt : Nat
  tags : List String
  draft : Bool
  body : String
deriving DecidableEq

/-- Modelled from the spec: the ordering used by `sortedByDate` —
`publishedAt` descending, ties broken by `slug` ascending. -/
def postOrder (a b : ContentRecord) : Prop :=
  b.publishedAt < a.publishedAt ∨
    (a.publishedAt = b.publishedAt ∧ a.slug ≤ b.slug)

instance : DecidableRel postOrder := fun a b => by
  unfold postOrder; exact inferInstance

instance : IsTotal ContentRecord postOrder := by
  constructor
  intro a b
  rcases Nat.lt_trichotomy a.publishedAt b.publishedAt with h | h | h
  · exact Or.inr (Or.inl h)
  · rcases le_total a.slug b.slug with hs | hs
    · exact Or.inl (Or.inr ⟨h, hs⟩)
    · exact Or.inr (Or.inr ⟨h.symm, hs⟩)
  · exact Or.inl (Or.inl h)

instance : IsTrans ContentRecord postOrder := by
  constructor
  intro a b c hab hbc
  rcases hab with h1 | ⟨e1, s1⟩
  · rcases hbc with h2 | ⟨e2, s2⟩
    · exact Or.inl (h2.trans h1)
    · exact Or.inl (e2 ▸ h1)
  · rcases hbc with h2 | ⟨e2, s2⟩
    · exact Or.inl (e1 ▸ h2)
    · exact Or.inr ⟨e1.trans e2, s1.trans s2⟩

/-- Modelled from the spec: `sortedByDate(records)` returns a new ordered
sequence sorted by `publishedAt` descending, ties broken by `slug`
ascending (spec section 4.2). -/
def sortedByDate (records : List ContentRecord) : List ContentRecord :=
  List.insertionSort postOrder records

/-- Modelled from the spec: `excludeDrafts(records)` returns the
subsequence where `draft == false` (spec section 4.2). -/
def excludeDrafts (records : List ContentRecord) : List ContentRecord :=
  records.filter (fun r => r.draft == false)

/-- Lowercases a string character by character, the normalization used
for case-insensitive tag matching. -/
def lowerStr (s : String) : String :=
  String.mk (s.data.map Char.toLower)

/-- Modelled from the spec: `byTag(records, tag)` returns the subsequence
whose `tags` set contains `tag`, case-insensitive exact match
(spec section 4.2). -/
def byTag (records : List ContentRecord) (tag : String) : List ContentRecord :=
  records.filter (fun r => r.tags.any (fun s => lowerStr s == lowerStr tag))

/-- Modelled from the spec: the number of available pages for a collection
of `len` records at `n` records per page, `ceil(len/n)`. -/
def pageCount (len n : Nat) : Nat :=
  (len + n - 1) / n

/-- Modelled from the spec: the error returned when a pagination request
addresses a page beyond the available range (spec section 7). -/
structure OutOfRangeError where
  pageIndex : Nat
  pages : Nat
deriving DecidableEq

/-- Modelled from the spec: `paginate(records, pageSize, pageIndex)`
returns the contiguous slice covering indices
`[pageIndex*pageSize, pageIndex*pageSize+pageSize)`; an index beyond
`ceil(len/pageSize)` fails with an `OutOfRangeError` (spec sections
4.2 and 8). -/
def paginate {α : Type} (records : List α) (pageSize pageIndex : Nat) :
    Except OutOfRangeError (List α) :=
  if pageCount records.length pageSize < pageIndex then
    Except.error ⟨pageIndex, pageCount records.length pageSize⟩
  else
    Except.ok ((records.drop (pageIndex * pageSize)).take pageSize)

/-! ## Collection Loader

Modelled from the spec: the repository ships no loader implementation
under its source tree (the content collection is validated by the build
framework, an external collaborator in the spec's terms), so the loader
contract of spec sections 4.1, 3 and 7 is defined here: required fields
`title` and `pubDatetime` must be present and well-typed, `pubDatetime`
must parse to a valid instant, slugs are derived from file paths and must
be unique, and any violation fails the whole load fail-fast with a
`ValidationError` naming the offender. -/

/-- Modelled from the spec: a raw content source — a file path plus the
front-matter fields of the content source format (spec section 6); the
body is opaque to validation. -/
structure RawSource where
  path : String
  title : Option String
  description : Option String
  pubDatetime : Option String
  tags : Option (List String)
  draft : Option Bool
  body : String
deriving DecidableEq

/-- Modelled from the spec: validation failures (spec section 7), each
naming the offending source (and field, or both sources for a slug
collision). -/
inductive ValidationError where
  | missingField (source field : String)
  | malformedField (source field : String)
  | duplicateSlug (sourceA sourceB : String)
deriving DecidableEq

/-- Numeric value of a decimal digit character. -/
def digitVal (c : Char) : Nat :=
  c.toNat - 48

/-- Encodes a date-time as a single natural number, strictly monotone in
the lexicographic order of its components. -/
def encodeInstant (y mo d h mi s : Nat) : Nat :=
  ((((y * 13 + mo) * 32 + d) * 24 + h) * 60 + mi) * 60 + s

/-- Modelled from the spec: `pubDatetime` must parse to a valid instant.
Accepts exactly the ISO-8601 UTC form `YYYY-MM-DDTHH:MM:SSZ` used by
every front-matter block in the repository, with in-range month, day,
hour, minute and second fields; returns `none` otherwise. -/
def parseInstant (s : String) : Option Nat :=
  match s.data with
  | [y1, y2, y3, y4, a1, m1, m2, a2, d1, d2, a3, h1, h2, a4, i1, i2, a5, s1, s2, a6] =>
    if a1 = '-' ∧ a2 = '-' ∧ a3 = 'T' ∧ a4 = ':' ∧ a5 = ':' ∧ a6 = 'Z' ∧
       y1.isDigit ∧ y2.isDigit ∧ y3.isDigit ∧ y4.isDigit ∧
       m1.isDigit ∧ m2.isDigit ∧ d1.isDigit ∧ d2.isDigit ∧
       h1.isDigit ∧ h2.isDigit ∧ i1.isDigit ∧ i2.isDigit ∧
       s1.isDigit ∧ s2.isDigit then
      let y := ((digitVal y1 * 10 + digitVal y2) * 10 + digitVal y3) * 10 + digitVal y4
      let mo := digitVal m1 * 10 + digitVal m2
      let d := digitVal d1 * 10 + digitVal d2
      let h := digitVal h1 * 10 + digitVal h2
      let mi := digitVal i1 * 10 + digitVal i2
      let sec := digitVal s1 * 10 + digitVal s2
      if 1 ≤ mo ∧ mo ≤ 12 ∧ 1 ≤ d ∧ d ≤ 31 ∧ h ≤ 23 ∧ mi ≤ 59 ∧ sec ≤ 59 then
        some (encodeInstant y mo d h mi sec)
      else
        none
    else
      none
  | _ => none

/-- The final path component of a file path (characters after the last
slash). -/
def lastComponent (cs : List Char) : List Char :=
  (cs.reverse.takeWhile (fun c => c ≠ '/')).reverse

/-- Drops the extension (characters from the last dot on) when one is
present. -/
def stripExt (cs : List Char) : List Char :=
  if cs.contains '.' then
    ((cs.reverse.dropWhile (fun c => c ≠ '.')).drop 1).reverse
  else
    cs

/-- Modelled from the spec: the slug of a content source is derived from
its file path (spec section 3) — here the file name without directory or
extension, the derivation used by the build framework. -/
def slugOf (p : String) : String :=
  String.mk (stripExt (lastComponent p.data))

/-- The field-validation verdict for one raw source: `some f` names the
first required field that is missing or malformed, `none` means the
source passes field validation. -/
def badField (s : RawSource) : Option String :=
  match s.title with
  | none => some ("title")
  | some t =>
    if t = "" then some ("title")
    else
      match s.pubDatetime with
      | none => some ("pubDatetime")
      | some d =>
        match parseInstant d with
        | none => some ("pubDatetime")
        | some _ => none

/-- Modelled from the spec: validates one raw source into a Content
Record (spec section 4.1) — `title` present and non-empty, `pubDatetime`
present and parsing to a valid instant; on failure a `ValidationError`
naming the source and the field.  Optional fields take the spec's
defaults (empty description, no tags, `draft == false`); the required
fields are never defaulted. -/
def validateSource (s : RawSource) : Except ValidationError ContentRecord :=
  match s.title with
  | none => Except.error (ValidationError.missingField s.path ("title"))
  | some t =>
    if t = "" then Except.error (ValidationError.missingField s.path ("title"))
    else
      match s.pubDatetime with
      | none => Except.error (ValidationError.missingField s.path ("pubDatetime"))
      | some d =>
        match parseInstant d with
        | none => Except.error (ValidationError.malformedField s.path ("pubDatetime"))
        | some inst =>
          Except.ok
            { slug := slugOf s.path
              title := t
              description := s.description.getD ""
              publishedAt := inst
              tags := s.tags.getD []
              draft := s.draft.getD false
              body := s.body }

/-- Validates every source in order, fail-fast on the first invalid one
(spec section 4.1: the whole build aborts, no partial publish). -/
def validateAll : List RawSource → Except ValidationError (List ContentRecord)
  | [] => Except.ok []
  | s :: rest =>
    match validateSource s with
    | Except.error e => Except.error e
    | Except.ok r =>
      match validateAll rest with
      | Except.error e => Except.error e
      | Except.ok rs => Except.ok (r :: rs)

/-- Finds the first pair of distinct sources deriving the same slug, if
any. -/
def findDupSource : List RawSource → Option (RawSource × RawSource)
  | [] => none
  | s :: rest =>
    match rest.find? (fun q => slugOf q.path == slugOf s.path) with
    | some q => some (s, q)
    | none => findDupSource rest

/-- Modelled from the spec: the Collection Loader (spec section 4.1) —
field-validates every source fail-fast, then rejects any slug collision
with a `ValidationError` naming both sources; only a fully valid set of
sources yields a loaded collection. -/
def loadCollection (sources : List RawSource) :
    Except ValidationError (List ContentRecord) :=
  match validateAll sources with
  | Except.error e => Except.error e
  | Except.ok records =>
    match findDupSource sources with
    | some (p, q) =>
      Except.error (ValidationError.duplicateSlug p.path q.path)
    | none => Except.ok records

/-- A raw source with no front matter at all, used to exhibit the loader
rejecting a source that misses its required fields. -/
def brokenSource : RawSource :=
  { path := "src/content/blog/broken.md"
    title := none
    description := none
    pubDatetime := none
    tags := none
    draft := none
    body := "" }

/-- A single-element source set whose only member misses every required
field. -/
def brokenSources : List RawSource :=
  [brokenSource]

/-- Two otherwise valid raw sources whose distinct paths derive the same
slug, used to exhibit the loader rejecting a slug collision. -/
def collidingSources : List RawSource :=
  [{ path := "src/content/blog/post.md"
     title := some ("First")
     description := some ("first post")
     pubDatetime := some ("2024-01-01T00:00:00Z")
     tags := some ([])
     draft := none
     body := "" },
   { path := "src/content/drafts/post.md"
     title := some ("Second")
     description := some ("second post")
     pubDatetime := some ("2024-02-01T00:00:00Z")
     tags := some ([])
     draft := none
     body := "" }]

/-! ## Blog content sources of the repository

The front-matter blocks below are embedded verbatim from the five blog
content files of the repository.  Three of the files ship without a
recorded file name; their paths here are the repository's placeholder
identifiers, which keeps the derived slugs distinct as the real distinct
file names do.  Body text is opaque to the loader and is elided. -/

/-- Front matter of src/content/blog/swift-configuration-practical-guide.md. -/
def postSwiftConfiguration : RawSource :=
  { path := "src/content/blog/swift-configuration-practical-guide.md"
    title := some ("Swift Configuration: A Practical Guide")
    description := some ("Using Apple\x27s swift-configuration library for debug settings, feature flags, and environment-based configuration.")
    pubDatetime := some ("2026-01-26T00:00:00Z")
    tags := some (["swift", "ios", "configuration", "swift-6"])
    draft := none
    body := "" }

/-- Front matter of src/content/blog/api-notes-swift-c-interop.md. -/
def postApiNotes : RawSource :=
  { path := "src/content/blog/api-notes-swift-c-interop.md"
    title := some ("API Notes: Improving Swift Imports Without Touching C Headers")
    description := some ("Learn how Clang API Notes let you customize how C libraries appear in Swift - rename functions, add nullability, and improve ergonomics without modifying original headers")
    pubDatetime := some ("2026-01-23T00:00:00Z")
    tags := some (["swift", "clang", "c", "interop"])
    draft := none
    body := "" }

/-- Front matter of the Git Tips post (unnamed source part_000). -/
def postGitTips : RawSource :=
  { path := "unnamed/part_000"
    title := some ("Git Tips")
    description := some ("Useful git tips for everyday use")
    pubDatetime := some ("2016-03-01T00:00:00Z")
    tags := some (["git", "tools"])
    draft := none
    body := "" }

/-- Front matter of the InlineArray post (unnamed source part_002). -/
def postInlineArray : RawSource :=
  { path := "unnamed/part_002"
    title := some ("InlineArray in Swift 6.2: Fixed-Size Arrays Done Right")
    description := some ("A deep dive into SE-0453 InlineArray - Swift finally gets stack-allocated fixed-size arrays with safe indexing and iteration")
    pubDatetime := some ("2026-01-22T00:00:00Z")
    tags := some (["swift", "ios", "arrays"])
    draft := none
    body := "" }

/-- Front matter of the Container Tool post (unnamed source part_003). -/
def postContainerTool : RawSource :=
  { path := "unnamed/part_003"
    title := some ("Apple\x27s Container Tool: A Deep Dive into CLI, Plugins, and XPC")
    description := some ("Understanding how Apple built their container tool - from CLI commands to plugin architecture to inter-process communication with XPC")
    pubDatetime := some ("2026-02-03T00:00:00Z")
    tags := some (["swift", "macos", "containers", "architecture"])
    draft := none
    body := "" }

/-- All blog content sources present in the repository. -/
def blogSources : List RawSource :=
  [postSwiftConfiguration, postApiNotes, postGitTips, postInlineArray,
   postContainerTool]

/-! ## Social and share links (from the unnamed source part_001) -/

/-- One entry of the `SOCIALS` constant: a named, active social link with
an icon. -/
structure SocialEntry where
  name : String
  href : String
  linkTitle : String
  icon : String
  active : Bool
deriving DecidableEq

/-- One entry of the `SHARE_LINKS` constant. -/
structure ShareEntry where
  name : String
  href : String
  linkTitle : String
  icon : String
deriving DecidableEq

/-- The `SOCIALS` constant, embedded from the source file.  The source
declares it with `as const`, which the embedding renders as a plain
definition: a compile-time constant immutable for the process lifetime.
Its link titles interpolate `SITE.title`, whose defining file is not part
of the studied sources, so the site title is a parameter here. -/
def SOCIALS (siteTitle : String) : List SocialEntry :=
  [{ name := "Github"
     href := "https://github.com/manojmahapatra"
     linkTitle := " " ++ siteTitle ++ " on Github"
     icon := "github"
     active := true },
   { name := "X"
     href := "https://x.com/mahapmanoj"
     linkTitle := siteTitle ++ " on X"
     icon := "twitter"
     active := true },
   { name := "Mail"
     href := "mailto:mahapatra.manoj@hotmail.com"
     linkTitle := "Send an email to " ++ siteTitle
     icon := "mail"
     active := true }]

/-- The `SHARE_LINKS` constant, embedded from the source file; like
`SOCIALS` it is declared `as const` and is immutable. -/
def SHARE_LINKS : List ShareEntry :=
  [{ name := "X"
     href := "https://x.com/intent/post?url="
     linkTitle := "Share this post on X"
     icon := "twitter" },
   { name := "LinkedIn"
     href := "https://www.linkedin.com/sharing/share-offsite/?url="
     linkTitle := "Share this post on LinkedIn"
     icon := "linkedin" },
   { name := "Mail"
     href := "mailto:?subject=See%20this%20post&body="
     linkTitle := "Share this post via email"
     icon := "mail" }]

/-- A sample record dated 2024-01-01, tagged `git` (the spec's concrete
scenario, section 8). -/
def samplePost1 : ContentRecord :=
  { slug := "first-post"
    title := "First"
    description := ""
    publishedAt := encodeInstant 2024 1 1 0 0 0
    tags := ["git"]
    draft := false
    body := "" }

/-- A sample draft record dated 2024-02-01, tagged `swift`. -/
def samplePost2 : ContentRecord :=
  { slug := "second-post"
    title := "Second"
    description := ""
    publishedAt := encodeInstant 2024 2 1 0 0 0
    tags := ["swift"]
    draft := true
    body := "" }

/-- A sample record dated 2024-03-01, tagged `git` and `swift`. -/
def samplePost3 : ContentRecord :=
  { slug := "third-post"
    title := "Third"
    description := ""
    publishedAt := encodeInstant 2024 3 1 0 0 0
    tags := ["git", "swift"]
    draft := false
    body := "" }

/-- The spec's three-post concrete scenario collection. -/
def sampleRecords : List ContentRecord :=
  [samplePost1, samplePost2, samplePost3]

/-! ## Theorems -/

/-- Claim C1: every invocation of the markdown mirror endpoint's GET
handler returns status 200, a text/markdown UTF-8 content type, a
one-hour public cache-control hint, and the one fixed document, which
contains the site identity, a navigation link and contact links; the
handler is total, so it has no error conditions of its own. -/
theorem GET_contract (ctx : APIContext) :
    (GET ctx).status = 200 ∧
    (GET ctx).contentType = "text/markdown; charset=utf-8" ∧
    (GET ctx).cacheControl = "public, max-age=" ++ toString (60 * 60) ∧
    (GET ctx).body = markdownContent ∧
    List.IsInfix ("Manoj Mahapatra").data markdownContent.data ∧
    List.IsInfix ("[About](/about.md)").data markdownContent.data ∧
    List.IsInfix ("https://github.com/manojmahapatra").data markdownContent.data := by
  refine ⟨rfl, rfl, rfl, rfl, ?_, ?_, ?_⟩ <;> decide

/-- Claim C8: the GET handler is deterministic and independent of its
request input: any two invocations return equal responses, in particular
byte-identical bodies. -/
theorem GET_deterministic (c1 c2 : APIContext) :
    GET c1 = GET c2 ∧ (GET c1).body.data = (GET c2).body.data :=
  ⟨rfl, rfl⟩

/-- Claim C4: `sortedByDate` returns a permutation of its input that is
non-increasing in `publishedAt`, and any two records with equal
`publishedAt` appear in `slug`-ascending order. -/
theorem sortedByDate_spec (l : List ContentRecord) :
    List.Perm (sortedByDate l) l ∧
    List.Pairwise
      (fun a b => b.publishedAt ≤ a.publishedAt ∧
        (a.publishedAt = b.publishedAt → a.slug ≤ b.slug))
      (sortedByDate l) := by
  constructor
  · exact List.perm_insertionSort postOrder l
  · refine (List.sorted_insertionSort postOrder l).imp ?_
    intro a b hab
    rcases hab with h | ⟨e, s⟩
    · exact ⟨le_of_lt h, fun he => absurd (he ▸ h) (lt_irrefl _)⟩
    · exact ⟨le_of_eq e.symm, fun _ => s⟩

/-- Claim C5: `excludeDrafts` returns the subsequence of records whose
draft flag is false: no returned record is a draft, and the output length
plus the number of drafts in the input equals the input length. -/
theorem excludeDrafts_spec (l : List ContentRecord) :
    List.Sublist (excludeDrafts l) l ∧
    (∀ r ∈ excludeDrafts l, r.draft = false) ∧
    (excludeDrafts l).length + l.countP (fun r => r.draft) = l.length := by
  refine ⟨List.filter_sublist l, ?_, ?_⟩
  · intro r hr
    have := (List.mem_filter.mp hr).2
    simpa using this
  · induction l with
    | nil => simp [excludeDrafts]
    | cons a t ih =>
      cases h : a.draft <;>
        simp [excludeDrafts, List.filter_cons, List.countP_cons, h] at * <;>
        omega

/-- Claim C6: `byTag(records, t)` returns exactly the subsequence of
records whose tags contain `t` case-insensitively: it is a subsequence of
the input, and a record of the input is returned if and only if some tag
of it equals `t` up to lowercasing. -/
theorem byTag_spec (l : List ContentRecord) (t : String) :
    List.Sublist (byTag l t) l ∧
    ∀ r ∈ l, (r ∈ byTag l t ↔ ∃ s ∈ r.tags, lowerStr s = lowerStr t) := by
  refine ⟨List.filter_sublist l, ?_⟩
  intro r hr
  constructor
  · intro hmem
    have := (List.mem_filter.mp hmem).2
    simpa using this
  · intro hex
    refine List.mem_filter.mpr ⟨hr, ?_⟩
    simpa using hex

/-- Claim C2: for a positive page size `n`, `paginate records n k`
returns the contiguous slice covering indices `[k*n, k*n+n)` of the input
(of length at most `n`) whenever `k` does not exceed `ceil(len/n)`, and
fails with an `OutOfRangeError` exactly when `k` exceeds `ceil(len/n)`. -/
theorem paginate_spec {α : Type} (records : List α) (n k : Nat)
    (hn : 0 < n) :
    (k ≤ pageCount records.length n →
      paginate records n k = Except.ok ((records.drop (k * n)).take n) ∧
      ((records.drop (k * n)).take n).length ≤ n ∧
      (∀ i, i < n →
        ((records.drop (k * n)).take n).get? i = records.get? (k * n + i))) ∧
    (pageCount records.length n < k →
      paginate records n k =
        Except.error ⟨k, pageCount records.length n⟩) := by
  constructor
  · intro hk
    refine ⟨?_, ?_, ?_⟩
    · unfold paginate
      rw [if_neg (Nat.not_lt.mpr hk)]
    · rw [List.length_take]
      exact Nat.min_le_left _ _
    · intro i hi
      rw [List.get?_take hi, List.get?_drop]
  · intro hk
    unfold paginate
    rw [if_pos hk]

/-- Witness for C2 at `records = [10, 20, 30]`, `n = 2`, `k = 0`. -/
theorem paginate_spec_witness :
    0 < 2 ∧
    ((0 ≤ pageCount (List.length [10, 20, 30]) 2 →
      paginate [10, 20, 30] 2 0 =
        Except.ok ((List.take 2 (List.drop (0 * 2) [10, 20, 30]))) ∧
      (List.take 2 (List.drop (0 * 2) [10, 20, 30])).length ≤ 2 ∧
      (∀ i, i < 2 →
        (List.take 2 (List.drop (0 * 2) [10, 20, 30])).get? i =
          List.get? [10, 20, 30] (0 * 2 + i))) ∧
    (pageCount (List.length [10, 20, 30]) 2 < 0 →
      paginate [10, 20, 30] 2 0 =
        Except.error ⟨0, pageCount (List.length [10, 20, 30]) 2⟩)) :=
  ⟨by decide, paginate_spec [10, 20, 30] 2 0 (by decide)⟩

/-- A field error reported by `validateSource` matches the verdict of
`badField` and names the source's path and the offending field. -/
theorem validateSource_error_of_badField (s : RawSource) (f : String)
    (h : badField s = some f) :
    validateSource s = Except.error (ValidationError.missingField s.path f) ∨
    validateSource s = Except.error (ValidationError.malformedField s.path f) := by
  rcases hT : s.title with _ | t
  · have hb : badField s = some ("title") := by simp [badField, hT]
    rw [hb] at h
    injection h with h
    subst h
    exact Or.inl (by simp [validateSource, hT])
  · by_cases ht : t = ""
    · subst ht
      have hb : badField s = some ("title") := by simp [badField, hT]
      rw [hb] at h
      injection h with h
      subst h
      exact Or.inl (by simp [validateSource, hT])
    · rcases hP : s.pubDatetime with _ | d
      · have hb : badField s = some ("pubDatetime") := by
          simp [badField, hT, ht, hP]
        rw [hb] at h
        injection h with h
        subst h
        exact Or.inl (by simp [validateSource, hT, ht, hP])
      · rcases hI : parseInstant d with _ | i
        · have hb : badField s = some ("pubDatetime") := by
            simp [badField, hT, ht, hP, hI]
          rw [hb] at h
          injection h with h
          subst h
          exact Or.inr (by simp [validateSource, hT, ht, hP, hI])
        · have hb : badField s = none := by
            simp [badField, hT, ht, hP, hI]
          rw [hb] at h
          exact absurd h (by simp)

/-- A source passing field validation is accepted by `validateSource`. -/
theorem validateSource_ok_of_badField_none (s : RawSource)
    (h : badField s = none) :
    ∃ r, validateSource s = Except.ok r := by
  rcases hT : s.title with _ | t
  · exact absurd h (by simp [badField, hT])
  · by_cases ht : t = ""
    · subst ht
      exact absurd h (by simp [badField, hT])
    · rcases hP : s.pubDatetime with _ | d
      · exact absurd h (by simp [badField, hT, ht, hP])
      · rcases hI : parseInstant d with _ | i
        · exact absurd h (by simp [badField, hT, ht, hP, hI])
        · exact ⟨{ slug := slugOf s.path
                   title := t
                   description := s.description.getD ""
                   publishedAt := i
                   tags := s.tags.getD []
                   draft := s.draft.getD false
                   body := s.body },
            by simp [validateSource, hT, ht, hP, hI]⟩

/-- An accepted record's required fields come from the source, with no
silent defaulting, and its slug is derived from the source's path. -/
theorem validateSource_ok_fields (s : RawSource) (r : ContentRecord)
    (h : validateSource s = Except.ok r) :
    s.title = some r.title ∧ r.title ≠ "" ∧
    (∃ d, s.pubDatetime = some d ∧ parseInstant d = some r.publishedAt) ∧
    r.slug = slugOf s.path := by
  rcases hT : s.title with _ | t
  · rw [show validateSource s = Except.error (ValidationError.missingField s.path ("title"))
        from by simp [validateSource, hT]] at h
    exact absurd h (by simp)
  · by_cases ht : t = ""
    · subst ht
      rw [show validateSource s = Except.error (ValidationError.missingField s.path ("title"))
          from by simp [validateSource, hT]] at h
      exact absurd h (by simp)
    · rcases hP : s.pubDatetime with _ | d
      · rw [show validateSource s =
              Except.error (ValidationError.missingField s.path ("pubDatetime"))
            from by simp [validateSource, hT, ht, hP]] at h
        exact absurd h (by simp)
      · rcases hI : parseInstant d with _ | i
        · rw [show validateSource s =
                Except.error (ValidationError.malformedField s.path ("pubDatetime"))
              from by simp [validateSource, hT, ht, hP, hI]] at h
          exact absurd h (by simp)
        · rw [show validateSource s = Except.ok
                { slug := slugOf s.path
                  title := t
                  description := s.description.getD ""
                  publishedAt := i
                  tags := s.tags.getD []
                  draft := s.draft.getD false
                  body := s.body }
              from by simp [validateSource, hT, ht, hP, hI]] at h
          injection h with h
          subst h
          exact ⟨rfl, ht, ⟨d, rfl, hI⟩, rfl⟩

/-- If some source fails field validation, `validateAll` fails with a
field error naming an offending source and field. -/
theorem validateAll_error_of_bad (sources : List RawSource)
    (h : ∃ s ∈ sources, badField s ≠ none) :
    ∃ s f, s ∈ sources ∧ badField s = some f ∧
      (validateAll sources = Except.error (ValidationError.missingField s.path f) ∨
       validateAll sources = Except.error (ValidationError.malformedField s.path f)) := by
  induction sources with
  | nil => simp at h
  | cons a rest ih =>
    cases hb : badField a with
    | some f =>
      rcases validateSource_error_of_badField a f hb with he | he
      · exact ⟨a, f, List.mem_cons_self a rest, hb,
          Or.inl (by unfold validateAll; rw [he])⟩
      · exact ⟨a, f, List.mem_cons_self a rest, hb,
          Or.inr (by unfold validateAll; rw [he])⟩
    | none =>
      obtain ⟨r, hr⟩ := validateSource_ok_of_badField_none a hb
      have hrest : ∃ s ∈ rest, badField s ≠ none := by
        rcases h with ⟨s, hs, hbad⟩
        rcases List.mem_cons.mp hs with rfl | hs
        · exact absurd hb hbad
        · exact ⟨s, hs, hbad⟩
      obtain ⟨s, f, hmem, hbf, hval⟩ := ih hrest
      refine ⟨s, f, List.mem_cons_of_mem a hmem, hbf, ?_⟩
      rcases hval with he | he
      · exact Or.inl (by unfold validateAll; rw [hr, he])
      · exact Or.inr (by unfold validateAll; rw [hr, he])

/-- If every source passes field validation, `validateAll` succeeds. -/
theorem validateAll_ok_of_good (sources : List RawSource)
    (h : ∀ s ∈ sources, badField s = none) :
    ∃ records, validateAll sources = Except.ok records := by
  induction sources with
  | nil => exact ⟨[], rfl⟩
  | cons a rest ih =>
    obtain ⟨r, hr⟩ := validateSource_ok_of_badField_none a
      (h a (List.mem_cons_self a rest))
    obtain ⟨rs, hrs⟩ := ih (fun s hs => h s (List.mem_cons_of_mem a hs))
    exact ⟨r :: rs, by unfold validateAll; rw [hr, hrs]⟩

/-- The slugs of a successfully validated collection are exactly the
slugs derived from the sources' paths, in order. -/
theorem validateAll_ok_slugs (sources : List RawSource)
    (records : List ContentRecord)
    (h : validateAll sources = Except.ok records) :
    records.map (fun r => r.slug) = sources.map (fun s => slugOf s.path) := by
  induction sources generalizing records with
  | nil =>
    unfold validateAll at h
    injection h with h
    subst h
    rfl
  | cons a rest ih =>
    unfold validateAll at h
    cases hv : validateSource a with
    | error e => rw [hv] at h; exact absurd h (by simp)
    | ok r =>
      rw [hv] at h
      cases hrest : validateAll rest with
      | error e => rw [hrest] at h; exact absurd h (by simp)
      | ok rs =>
        rw [hrest] at h
        injection h with h
        subst h
        have hslug := (validateSource_ok_fields a r hv).2.2.2
        simp only [List.map_cons, hslug, ih rs hrest]

/-- `findDupSource` reports nothing exactly when all sources derive
pairwise distinct slugs. -/
theorem findDupSource_none_iff (sources : List RawSource) :
    findDupSource sources = none ↔
    sources.Pairwise (fun a b => slugOf a.path ≠ slugOf b.path) := by
  induction sources with
  | nil => simp [findDupSource]
  | cons s rest ih =>
    rw [List.pairwise_cons]
    cases hf : rest.find? (fun q => slugOf q.path == slugOf s.path) with
    | some q =>
      have hq : q ∈ rest := List.mem_of_find?_eq_some hf
      have heq : slugOf q.path = slugOf s.path := by
        simpa using List.find?_some hf
      constructor
      · intro hnone
        rw [show findDupSource (s :: rest) = some (s, q) from by
          simp only [findDupSource, hf]] at hnone
        exact absurd hnone (by simp)
      · intro ⟨h1, _⟩
        exact absurd heq.symm (h1 q hq)
    | none =>
      rw [show findDupSource (s :: rest) = findDupSource rest from by
        simp only [findDupSource, hf]]
      rw [ih]
      constructor
      · intro h2
        refine ⟨?_, h2⟩
        intro q hq heq
        have := List.find?_eq_none.mp hf q hq
        exact this (by simp [heq])
      · intro ⟨_, h2⟩
        exact h2

/-- A pair reported by `findDupSource` consists of two sources at
distinct positions of the input deriving the same slug. -/
theorem findDupSource_some_decomp (sources : List RawSource)
    (p q : RawSource) (h : findDupSource sources = some (p, q)) :
    ∃ l1 l2 l3, sources = l1 ++ p :: (l2 ++ q :: l3) ∧
      slugOf p.path = slugOf q.path := by
  induction sources with
  | nil => exact absurd h (by simp [findDupSource])
  | cons s rest ih =>
    cases hf : rest.find? (fun w => slugOf w.path == slugOf s.path) with
    | some w =>
      rw [show findDupSource (s :: rest) = some (s, w) from by
        simp only [findDupSource, hf]] at h
      injection h with h
      injection h with h1 h2
      obtain ⟨l2, l3, hrest⟩ := List.append_of_mem (List.mem_of_find?_eq_some hf)
      have hpred : slugOf w.path = slugOf s.path := by
        simpa using List.find?_some hf
      refine ⟨[], l2, l3, ?_, ?_⟩
      · rw [← h1, ← h2, hrest]; rfl
      · rw [← h1, ← h2]; exact hpred.symm
    | none =>
      rw [show findDupSource (s :: rest) = findDupSource rest from by
        simp only [findDupSource, hf]] at h
      obtain ⟨l1, l2, l3, hrest, heq⟩ := ih h
      exact ⟨s :: l1, l2, l3, by rw [hrest]; rfl, heq⟩

/-- A failure of `validateAll` is a failure of the whole load. -/
theorem loadCollection_error_of_validateAll (sources : List RawSource)
    (e : ValidationError) (h : validateAll sources = Except.error e) :
    loadCollection sources = Except.error e := by
  unfold loadCollection
  rw [h]

/-- A successful load means every source field-validated and no slug
collision was found. -/
theorem loadCollection_ok_elim (sources : List RawSource)
    (records : List ContentRecord)
    (h : loadCollection sources = Except.ok records) :
    validateAll sources = Except.ok records ∧
    findDupSource sources = none := by
  unfold loadCollection at h
  cases hv : validateAll sources with
  | error e => rw [hv] at h; exact absurd h (by simp)
  | ok rs =>
    rw [hv] at h
    cases hf : findDupSource sources with
    | some pq =>
      rw [hf] at h
      rcases pq with ⟨p, q⟩
      exact absurd h (by simp)
    | none =>
      rw [hf] at h
      injection h with h
      subst h
      exact ⟨rfl, rfl⟩

/-- Claim C3: if any source misses a required field (`title` or
`pubDatetime`) or carries a timestamp that does not parse to a valid
instant, the whole load fails with a `ValidationError` naming an
offending source and field, and no collection is published; moreover a
record is only ever accepted with its required fields taken verbatim
from the source, never silently defaulted. -/
theorem loader_rejects_invalid (sources : List RawSource)
    (h : ∃ s ∈ sources, badField s ≠ none) :
    (∃ s f, s ∈ sources ∧ badField s = some f ∧
      (loadCollection sources =
        Except.error (ValidationError.missingField s.path f) ∨
       loadCollection sources =
        Except.error (ValidationError.malformedField s.path f))) ∧
    (∀ records, loadCollection sources ≠ Except.ok records) ∧
    (∀ s r, validateSource s = Except.ok r →
      s.title = some r.title ∧ r.title ≠ "" ∧
      ∃ d, s.pubDatetime = some d ∧ parseInstant d = some r.publishedAt) := by
  obtain ⟨s, f, hmem, hbf, hval⟩ := validateAll_error_of_bad sources h
  have hload : loadCollection sources =
      Except.error (ValidationError.missingField s.path f) ∨
      loadCollection sources =
      Except.error (ValidationError.malformedField s.path f) := by
    rcases hval with he | he
    · exact Or.inl (loadCollection_error_of_validateAll sources _ he)
    · exact Or.inr (loadCollection_error_of_validateAll sources _ he)
  refine ⟨⟨s, f, hmem, hbf, hload⟩, ?_, ?_⟩
  · intro records hok
    rcases hload with he | he <;> rw [he] at hok <;> exact absurd hok (by simp)
  · intro s2 r hv
    obtain ⟨h1, h2, h3, _⟩ := validateSource_ok_fields s2 r hv
    exact ⟨h1, h2, h3⟩

/-- Witness for C3 at a one-element source set missing its title. -/
theorem loader_rejects_invalid_witness :
    (∃ s ∈ brokenSources, badField s ≠ none) ∧
    ((∃ s f, s ∈ brokenSources ∧ badField s = some f ∧
      (loadCollection brokenSources =
        Except.error (ValidationError.missingField s.path f) ∨
       loadCollection brokenSources =
        Except.error (ValidationError.malformedField s.path f))) ∧
    (∀ records, loadCollection brokenSources ≠ Except.ok records) ∧
    (∀ s r, validateSource s = Except.ok r →
      s.title = some r.title ∧ r.title ≠ "" ∧
      ∃ d, s.pubDatetime = some d ∧ parseInstant d = some r.publishedAt)) :=
  ⟨by decide, loader_rejects_invalid brokenSources (by decide)⟩

/-- Claim C7: whenever two distinct sources derive the same slug the
load fails; when every source passes field validation the reported
`ValidationError` is a slug collision naming both offending sources; and
every successfully loaded collection has pairwise distinct slugs. -/
theorem loader_slug_unique (sources : List RawSource)
    (h : ¬ (sources.map (fun s => slugOf s.path)).Pairwise (fun a b => a ≠ b)) :
    (∃ e, loadCollection sources = Except.error e) ∧
    ((∀ s ∈ sources, badField s = none) →
      ∃ p q l1 l2 l3, sources = l1 ++ p :: (l2 ++ q :: l3) ∧
        slugOf p.path = slugOf q.path ∧
        loadCollection sources =
          Except.error (ValidationError.duplicateSlug p.path q.path)) ∧
    (∀ sources2 records, loadCollection sources2 = Except.ok records →
      (records.map (fun r => r.slug)).Pairwise (fun a b => a ≠ b)) := by
  have h2 : ¬ sources.Pairwise (fun a b => slugOf a.path ≠ slugOf b.path) := by
    intro hp
    exact h (List.pairwise_map.mpr hp)
  have hdup : findDupSource sources ≠ none := fun hn =>
    h2 ((findDupSource_none_iff sources).mp hn)
  refine ⟨?_, ?_, ?_⟩
  · cases hv : validateAll sources with
    | error e => exact ⟨e, loadCollection_error_of_validateAll sources e hv⟩
    | ok records =>
      cases hf : findDupSource sources with
      | none => exact absurd hf hdup
      | some pq =>
        rcases pq with ⟨p, q⟩
        refine ⟨ValidationError.duplicateSlug p.path q.path, ?_⟩
        unfold loadCollection
        rw [hv, hf]
  · intro hall
    obtain ⟨records, hv⟩ := validateAll_ok_of_good sources hall
    cases hf : findDupSource sources with
    | none => exact absurd hf hdup
    | some pq =>
      rcases pq with ⟨p, q⟩
      obtain ⟨l1, l2, l3, hdecomp, heq⟩ := findDupSource_some_decomp sources p q hf
      refine ⟨p, q, l1, l2, l3, hdecomp, heq, ?_⟩
      unfold loadCollection
      rw [hv, hf]
  · intro sources2 records hok
    obtain ⟨hv, hf⟩ := loadCollection_ok_elim sources2 records hok
    rw [validateAll_ok_slugs sources2 records hv]
    exact List.pairwise_map.mpr ((findDupSource_none_iff sources2).mp hf)

/-- Witness for C7 at two field-valid sources whose paths derive the
same slug. -/
theorem loader_slug_unique_witness :
    (¬ (collidingSources.map (fun s => slugOf s.path)).Pairwise
        (fun a b => a ≠ b)) ∧
    ((∃ e, loadCollection collidingSources = Except.error e) ∧
    ((∀ s ∈ collidingSources, badField s = none) →
      ∃ p q l1 l2 l3, collidingSources = l1 ++ p :: (l2 ++ q :: l3) ∧
        slugOf p.path = slugOf q.path ∧
        loadCollection collidingSources =
          Except.error (ValidationError.duplicateSlug p.path q.path)) ∧
    (∀ sources2 records, loadCollection sources2 = Except.ok records →
      (records.map (fun r => r.slug)).Pairwise (fun a b => a ≠ b))) :=
  ⟨by decide, loader_slug_unique collidingSources (by decide)⟩

/-- Claim C9: every blog content source of the repository carries a
non-empty title, a description, a `pubDatetime` parsing as a valid
ISO-8601 instant, and a tags list, so the whole collection passes the
loader's required-field validation and loads without a
`ValidationError`. -/
theorem blog_sources_valid :
    (∀ s ∈ blogSources, s.title.isSome = true ∧ s.title.getD "" ≠ "") ∧
    (∀ s ∈ blogSources, s.description.isSome = true) ∧
    (∀ s ∈ blogSources, (s.pubDatetime.bind parseInstant).isSome = true) ∧
    (∀ s ∈ blogSources, s.tags.isSome = true) ∧
    ∃ records, loadCollection blogSources = Except.ok records := by
  refine ⟨?_, ?_, ?_, ?_, ⟨_, rfl⟩⟩ <;> decide

/-- Claim C10: every entry of the `SOCIALS` constant is active with a
non-empty name, href and icon, whatever the configured site title; and
the embedded `SOCIALS` and `SHARE_LINKS` constants are fixed lists of
exactly the three named entries each. -/
theorem socials_active_nonempty (siteTitle : String) :
    (∀ e ∈ SOCIALS siteTitle,
      e.active = true ∧ e.name ≠ "" ∧ e.href ≠ "" ∧ e.icon ≠ "") ∧
    (SOCIALS siteTitle).map (fun e => e.name) = ["Github", "X", "Mail"] ∧
    SHARE_LINKS.map (fun e => e.name) = ["X", "LinkedIn", "Mail"] := by
  refine ⟨?_, rfl, rfl⟩
  intro e he
  simp only [SOCIALS, List.mem_cons, List.not_mem_nil, or_false] at he
  rcases he with rfl | rfl | rfl <;> refine ⟨rfl, ?_, ?_, ?_⟩ <;> simp

/-- Witness for C1 at a concrete request context. -/
theorem GET_contract_witness :
    (GET ⟨"/index.md"⟩).status = 200 ∧
    (GET ⟨"/index.md"⟩).contentType = "text/markdown; charset=utf-8" ∧
    (GET ⟨"/index.md"⟩).cacheControl = "public, max-age=" ++ toString (60 * 60) ∧
    (GET ⟨"/index.md"⟩).body = markdownContent ∧
    List.IsInfix ("Manoj Mahapatra").data markdownContent.data ∧
    List.IsInfix ("[About](/about.md)").data markdownContent.data ∧
    List.IsInfix ("https://github.com/manojmahapatra").data markdownContent.data :=
  GET_contract ⟨"/index.md"⟩

/-- Witness for C8 at two distinct concrete request contexts. -/
theorem GET_deterministic_witness :
    GET ⟨"/a.md"⟩ = GET ⟨"/b.md"⟩ ∧
    (GET ⟨"/a.md"⟩).body.data = (GET ⟨"/b.md"⟩).body.data :=
  GET_deterministic ⟨"/a.md"⟩ ⟨"/b.md"⟩

/-- Witness for C4 at the spec's concrete three-post scenario. -/
theorem sortedByDate_spec_witness :
    List.Perm (sortedByDate sampleRecords) sampleRecords ∧
    List.Pairwise
      (fun a b => b.publishedAt ≤ a.publishedAt ∧
        (a.publishedAt = b.publishedAt → a.slug ≤ b.slug))
      (sortedByDate sampleRecords) :=
  sortedByDate_spec sampleRecords

/-- Witness for C5 at the spec's concrete three-post scenario. -/
theorem excludeDrafts_spec_witness :
    List.Sublist (excludeDrafts sampleRecords) sampleRecords ∧
    (∀ r ∈ excludeDrafts sampleRecords, r.draft = false) ∧
    (excludeDrafts sampleRecords).length +
      sampleRecords.countP (fun r => r.draft) = sampleRecords.length :=
  excludeDrafts_spec sampleRecords

/-- Witness for C6 at the spec's concrete three-post scenario and the
tag `git`. -/
theorem byTag_spec_witness :
    List.Sublist (byTag sampleRecords "git") sampleRecords ∧
    ∀ r ∈ sampleRecords,
      (r ∈ byTag sampleRecords "git" ↔
        ∃ s ∈ r.tags, lowerStr s = lowerStr "git") :=
  byTag_spec sampleRecords "git"

/-- Witness for C10 at the site's own title. -/
theorem socials_active_nonempty_witness :
    (∀ e ∈ SOCIALS "Manoj Mahapatra",
      e.active = true ∧ e.name ≠ "" ∧ e.href ≠ "" ∧ e.icon ≠ "") ∧
    (SOCIALS "Manoj Mahapatra").map (fun e => e.name) = ["Github", "X", "Mail"] ∧
    SHARE_LINKS.map (fun e => e.name) = ["X", "LinkedIn", "Mail"] :=
  socials_active_nonempty "Manoj Mahapatra"

/-- The spec's concrete scenario, evaluated: excluding drafts and sorting
by date yields the 2024-03-01 post then the 2024-01-01 post, and
filtering that result by the tag `git` keeps both. -/
theorem sample_scenario_eval :
    sortedByDate (excludeDrafts sampleRecords) = [samplePost3, samplePost1] ∧
    byTag (sortedByDate (excludeDrafts sampleRecords)) "git" =
      [samplePost3, samplePost1] := by
  constructor <;> decide
